import Mathlib

/-!
Verification of the TidyTuesdayPy client (`pytytuesday.py`) against its
natural-language specification.

The source is a single Python class making read-only HTTP GET requests to a
remote content-listing API and parsing the fetched files.  The shallow
embedding below models:

* the external HTTP/JSON collaborators (directory listings, raw content,
  file bytes, the rate-limit probe) as an explicit `Env` record of pure
  functions, where `none` models a non-200 / failed request;
* Python dictionaries built by the code as association lists with
  last-insert-wins update (`dictInsert`), matching `dict` literal and
  `**`-splat semantics;
* `datetime.date` values as proleptic-Gregorian ordinals (`Int`), exactly as
  `datetime.date.toordinal` does (ordinal 1 = 0001-01-01, a Monday), so that
  `timedelta(days = k)` subtraction is ordinal subtraction and
  `date.weekday()` is `(ordinal - 1) % 7` with Monday = 0;
* printed warning/error messages as a `Diag` list returned alongside each
  operation's value (informational prints are not modelled);
* a Python function body that can terminate by an uncaught exception as
  `PyResult`, with `raised` marking propagation of the exception.

`pandas.read_csv` (and its tsv variant) is an external library; its behavior
on the simple comma/tab-delimited inputs exercised here is modelled from the
spec's parse rule (first row = header, integer-looking cells become
integers).  The spreadsheet and JSON deserializers act on binary/structured
payloads that a byte-string embedding cannot re-implement, so they are kept
abstract as collaborator fields of `Env`.
-/

/-- One cell of a parsed table: pandas-style integer or string. -/
inductive Cell where
  | int (i : Int)
  | str (s : String)
deriving DecidableEq, Repr

/-- An in-memory table: named columns plus rows (models a `pandas.DataFrame`). -/
structure Table where
  columns : List String
  rows : List (List Cell)
deriving DecidableEq, Repr

/-- `pd.DataFrame()` with no contents. -/
def emptyTable : Table := ⟨[], []⟩

/-- One entry of a GitHub contents-listing response (the fields the code reads). -/
structure GhItem where
  name : String
  type : String
  download_url : String
  path : String
deriving DecidableEq, Repr

/-- One data-file record as built by `tt_load_gh`. -/
structure FileRef where
  name : String
  download_url : String
  path : String
deriving DecidableEq, Repr

/-- One catalog entry as built by `tt_datasets`. -/
structure Summary where
  date : String
  title : String
  path : String
deriving DecidableEq, Repr

/-- The metadata dictionary returned by a successful `tt_load_gh`. -/
structure Metadata where
  date : String
  year : String
  files : List FileRef
  readme_content : String
  readme_html : String
deriving DecidableEq, Repr

/-- Failure kinds of the single-target operations (each corresponds to a
printed message plus an empty `{}` return in the Python code). -/
inductive TTErr where
  | rateLimited
  | notFound
  | outOfRange
  | fetchError
  | unsupportedFormat
  | parseError
deriving DecidableEq, Repr

/-- Diagnostics: the warning/error messages the code prints while continuing. -/
inductive Diag where
  | invalidData
  | fileNotFound (name : String)
  | indexOutOfRange (i : Int)
  | downloadError (name : String)
  | unsupportedFormat (name : String)
  | processError (name : String)
deriving DecidableEq, Repr

/-- Result of a Python call that may terminate with an uncaught exception. -/
inductive PyResult (α : Type) where
  | ok (a : α)
  | raised (msg : String)
deriving DecidableEq, Repr

/-- A value stored in the `tt_load_gh` result dictionary. -/
inductive MetaVal where
  | str (s : String)
  | files (l : List FileRef)
deriving DecidableEq, Repr

/-- A value stored in the `tt_load` result dictionary. -/
inductive LoadVal where
  | str (s : String)
  | table (t : Table)
deriving DecidableEq, Repr

/-- The dictionary passed as `tt_data` to the download operations
(`{}` from a failed `tt_load_gh` is the empty list). -/
def TTData : Type := List (String × MetaVal)

/-- The `files` argument of `tt_download`: a plain string (where the exact
string `"All"` selects everything) or a list of names. -/
inductive PySel where
  | str (s : String)
  | names (l : List String)
deriving DecidableEq, Repr

/-- The `file_identifier` argument of `tt_download_file`. -/
inductive FileIdent where
  | idx (i : Int)
  | name (s : String)
deriving DecidableEq, Repr

/-- The external collaborators: remote listing/raw endpoints, the rate-limit
probe, the byte fetcher, and the two binary/structured deserializers that a
byte-string embedding keeps abstract.  `none` models a failed request or a
non-200 status. -/
structure Env where
  rateLimit : Option Int
  listRoot : Option (List GhItem)
  listYear : String → Option (List GhItem)
  listFolder : String → String → Option (List GhItem)
  rawReadme : String → String → Option String
  fileBytes : String → Option String
  xlsParse : String → Option Table
  jsonParse : String → Option Table
  todayOrd : Int

/-- Python-dict lookup on an association list. -/
def lookupDict {α : Type} (k : String) : List (String × α) → Option α
  | [] => none
  | (k1, v) :: rest => if k1 = k then some v else lookupDict k rest

/-- Python-dict insertion: replace the value of an existing key in place,
otherwise append. -/
def dictInsert {α : Type} (d : List (String × α)) (k : String) (v : α) :
    List (String × α) :=
  match d with
  | [] => [(k, v)]
  | (k1, v1) :: rest =>
    if k1 = k then (k, v) :: rest else (k1, v1) :: dictInsert rest k v

/-! ## Date arithmetic

`datetime.date` is embedded as its proleptic-Gregorian ordinal
(`date.toordinal()`): ordinal 1 is 0001-01-01, a Monday, and
`d.weekday()` equals `(d.toordinal() - 1) % 7` with Monday = 0.
Lean's `Int` `%` (Euclidean) agrees with Python `%` for a positive modulus.
-/

/-- `date.weekday()` on an ordinal: Monday = 0 .. Sunday = 6. -/
def pyWeekday (ord : Int) : Int := (ord - 1) % 7

/-- Lines 84-85 of the source: `days_since_tuesday = (weekday - 1) % 7` and
`date_obj - timedelta(days=days_since_tuesday)`, on ordinals. -/
def last_tuesday_ord (ord : Int) : Int := ord - (pyWeekday ord - 1) % 7

/-- Leap year test of the Gregorian calendar (as `calendar.isleap`). -/
def isLeap (y : Int) : Bool := y % 4 = 0 && (y % 100 ≠ 0 || y % 400 = 0)

/-- Days in a month (`m` between 1 and 12). -/
def daysInMonth (y m : Int) : Int :=
  if m = 2 then (if isLeap y then 29 else 28)
  else if m = 4 || m = 6 || m = 9 || m = 11 then 30
  else 31

/-- Civil date to proleptic-Gregorian ordinal (`datetime.date(y,m,d).toordinal()`),
via the standard days-from-civil computation.  All divisors are positive, so
Lean's Euclidean `/` coincides with floor division. -/
def dateToOrd (y m d : Int) : Int :=
  let y1 := y - (if m ≤ 2 then 1 else 0)
  let era := y1 / 400
  let yoe := y1 - era * 400
  let mp := m + (if m > 2 then -3 else 9)
  let doy := (153 * mp + 2) / 5 + d - 1
  let doe := yoe * 365 + yoe / 4 - yoe / 100 + doy
  era * 146097 + doe - 305

/-- Ordinal back to civil date (`datetime.date.fromordinal`), the inverse
days-to-civil computation. -/
def civilFromOrd (ord : Int) : Int × Int × Int :=
  let z := ord + 305
  let era := z / 146097
  let doe := z % 146097
  let yoe := (doe - doe / 1460 + doe / 36524 - doe / 146096) / 365
  let doy := doe - (365 * yoe + yoe / 4 - yoe / 100)
  let mp := (5 * doy + 2) / 153
  let d := doy - (153 * mp + 2) / 5 + 1
  let m := mp + (if mp < 10 then 3 else -9)
  (yoe + era * 400 + (if m ≤ 2 then 1 else 0), m, d)

/-- Zero-pad to two digits, as `strftime` does for `%m` and `%d`. -/
def pad2 (n : Int) : String := if n < 10 then "0" ++ toString n else toString n

/-- `strftime("%Y-%m-%d")` of an ordinal (years of interest are four-digit). -/
def fmtDate (ord : Int) : String :=
  let c := civilFromOrd ord
  toString c.1 ++ "-" ++ pad2 c.2.1 ++ "-" ++ pad2 c.2.2

/-- Numeric value of an ASCII digit character. -/
def digitVal (c : Char) : Int := (c.toNat : Int) - 48

/-- The `%m` / `%d` field of `strptime`: a two-digit value in `[1, hi]`
(zero-padded or e.g. `10`), or a single nonzero digit followed by a
non-digit; mirrors the regexes CPython compiles for these directives. -/
def parseNum2 (hi : Int) : List Char → Option (Int × List Char)
  | c1 :: c2 :: rest =>
    if c1.isDigit then
      if c2.isDigit then
        let v := 10 * digitVal c1 + digitVal c2
        if 1 ≤ v ∧ v ≤ hi then some (v, rest) else none
      else if 1 ≤ digitVal c1 then some (digitVal c1, c2 :: rest) else none
    else none
  | [c1] => if c1.isDigit && 1 ≤ digitVal c1 then some (digitVal c1, []) else none
  | [] => none

/-- `datetime.datetime.strptime(s, "%Y-%m-%d")`, returning the ordinal of the
parsed date, or `none` where Python raises `ValueError` (bad syntax, year 0,
or a day not in the month). -/
def parseDateIso (s : String) : Option Int :=
  match s.data with
  | a :: b :: c :: d :: '-' :: rest =>
    if a.isDigit && b.isDigit && c.isDigit && d.isDigit then
      let y := 1000 * digitVal a + 100 * digitVal b + 10 * digitVal c + digitVal d
      match parseNum2 12 rest with
      | some (m, '-' :: rest2) =>
        match parseNum2 31 rest2 with
        | some (dd, []) =>
          if 1 ≤ y ∧ dd ≤ daysInMonth y m then some (dateToOrd y m dd) else none
        | _ => none
      | _ => none
    else none
  | _ => none

/-- Lines 60-87 of the source, `TidyTuesdayPy.last_tuesday`, as a top-level
operation on an optional date string.  With no argument the code formats
"today" (UTC shifted by a fixed offset) and re-parses it, which round-trips to
`env.todayOrd`.  With a string argument, `strptime` is **not** guarded by any
try/except: an unparseable string propagates `ValueError` out of the call,
modelled by `PyResult.raised`. -/
def last_tuesday (env : Env) (date : Option String) : PyResult String :=
  match date with
  | none => .ok (fmtDate (last_tuesday_ord env.todayOrd))
  | some s =>
    match parseDateIso s with
    | none => .raised "ValueError"
    | some n => .ok (fmtDate (last_tuesday_ord n))

/-! ## String helpers: the regexes of the source, re-implemented directly

Lean's built-in `String.splitOn`, `endsWith`, `replace`, `toLower` are
defined by well-founded recursion on byte positions, which the kernel cannot
evaluate; the structurally recursive equivalents below (on the underlying
character lists) are used instead so that every definition reduces. -/

/-- `p` is a prefix of `l` (character lists). -/
def listIsPrefix : List Char → List Char → Bool
  | [], _ => true
  | _ :: _, [] => false
  | p :: ps, c :: cs => p = c && listIsPrefix ps cs

/-- `s.startswith(p)` over the character lists. -/
def startsWithStr (p s : String) : Bool := listIsPrefix p.data s.data

/-- `s.endswith(post)` over the character lists. -/
def endsWithStr (post s : String) : Bool :=
  listIsPrefix post.data.reverse s.data.reverse

/-- `str.lower()` (ASCII). -/
def lowerStr (s : String) : String := String.mk (s.data.map Char.toLower)

/-- The first `n` characters of `s`. -/
def takeStr (n : Nat) (s : String) : String := String.mk (s.data.take n)

/-- `s` without its first `n` characters. -/
def dropStr (n : Nat) (s : String) : String := String.mk (s.data.drop n)

/-- Accumulator worker for single-character `str.split`. -/
def splitChAux (sep : Char) : List Char → List Char → List (List Char)
  | [], acc => [acc.reverse]
  | x :: rest, acc =>
    if x = sep then acc.reverse :: splitChAux sep rest []
    else splitChAux sep rest (x :: acc)

/-- `s.split(sep)` for a single-character separator. -/
def splitOnCh (sep : Char) (s : String) : List String :=
  (splitChAux sep s.data []).map String.mk

/-- `sep.join(parts)`. -/
def joinSep (sep : String) : List String → String
  | [] => ""
  | [x] => x
  | x :: rest => x ++ sep ++ joinSep sep rest

/-- `s.replace("\n", "<br>")`. -/
def replaceNl (s : String) : String :=
  String.mk (s.data.foldr
    (fun ch acc => if ch = '\n' then "<br>".data ++ acc else ch :: acc) [])

/-- Digits of a decimal numeral, as a number. -/
def parseNatDigits (cs : List Char) : Option Nat :=
  if cs ≠ [] ∧ cs.all Char.isDigit then
    some (cs.foldl (fun n c => 10 * n + (c.toNat - 48)) 0)
  else none

/-- Integer syntax as `String.toInt?` accepts it: an optional minus sign
followed by decimal digits. -/
def parseIntStr (s : String) : Option Int :=
  match s.data with
  | '-' :: rest => (parseNatDigits rest).map (fun n => -(n : Int))
  | cs => (parseNatDigits cs).map (fun n => (n : Int))

/-- Python's `\s` on the characters occurring in ASCII text. -/
def pySpace (c : Char) : Bool :=
  c = ' ' || c = '\t' || c = '\n' || c = '\r' || c = '\x0b' || c = '\x0c'

/-- `str.strip()`: drop whitespace from both ends. -/
def pyStrip (cs : List Char) : List Char :=
  (((cs.dropWhile pySpace).reverse).dropWhile pySpace).reverse

/-- Characters of the current match up to the next newline (`.` of `re`
does not match `\n`, and the lazy capture stops at the first `\n` or the
end of the string). -/
def takeTitleLine : List Char → List Char
  | [] => []
  | c :: rest => if c = '\n' then [] else c :: takeTitleLine rest

/-- The maximal whitespace run eaten by the greedy `\s+`. -/
def dropSpaceRun : List Char → List Char
  | [] => []
  | c :: rest => if pySpace c then dropSpaceRun rest else c :: rest

/-- `re.search(r"#\s+(.*?)(?:\n|$)", s)`: first `#` followed by at least one
whitespace character; the greedy `\s+` eats the whole whitespace run, the
lazy group captures up to the next newline or the end. -/
def findHeading : List Char → Option (List Char)
  | '#' :: c :: rest =>
    if pySpace c then some (takeTitleLine (dropSpaceRun (c :: rest)))
    else findHeading (c :: rest)
  | _ :: rest => findHeading rest
  | [] => none

/-- Lines 168-174 of the source: title from the first heading of a README,
stripped, with the `"Unknown"` fallback when the regex finds no match. -/
def extractTitle (s : String) : String :=
  match findHeading s.data with
  | some t => String.mk (pyStrip t)
  | none => "Unknown"

/-- `re.match(r"^\d{4}-\d{2}-\d{2}$", s)` (with `\d` as an ASCII digit). -/
def isDatePattern (s : String) : Bool :=
  match s.data with
  | [a, b, c, d, '-', e, f, '-', g, h] =>
    a.isDigit && b.isDigit && c.isDigit && d.isDigit &&
      e.isDigit && f.isDigit && g.isDigit && h.isDigit
  | _ => false

/-! ### The `_markdown_to_html` conversion (lines 474-520 of the source) -/

/-- One line under the three MULTILINE heading substitutions
(`^# (.*?)$`, `^## (.*?)$`, `^### (.*?)$`); the patterns are mutually
exclusive on a line and substituted text never re-matches. -/
def mdLine (line : String) : String :=
  if startsWithStr "# " line then "<h1>" ++ dropStr 2 line ++ "</h1>"
  else if startsWithStr "## " line then "<h2>" ++ dropStr 3 line ++ "</h2>"
  else if startsWithStr "### " line then "<h3>" ++ dropStr 4 line ++ "</h3>"
  else line

/-- All three heading substitutions over the whole text. -/
def mdHeadings (s : String) : String :=
  joinSep "\n" ((splitOnCh '\n' s).map mdLine)

/-- The lazy `(.*?)\)` tail of the link regex: the shortest run of
non-newline characters closed by `)`. -/
def linkScanUrl : List Char → Option (List Char × List Char)
  | [] => none
  | c :: rest =>
    if c = '\n' then none
    else if c = ')' then some ([], rest)
    else (linkScanUrl rest).map (fun p => (c :: p.1, p.2))

theorem linkScanUrl_length :
    ∀ l u rem, linkScanUrl l = some (u, rem) → rem.length < l.length := by
  intro l
  induction l with
  | nil => intro u rem h; simp [linkScanUrl] at h
  | cons c rest ih =>
    intro u rem h
    simp only [linkScanUrl] at h
    split at h
    · exact absurd h (by simp)
    · split at h
      · cases h; simp
      · rcases Option.map_eq_some'.mp h with ⟨q, hq, hqe⟩
        cases hqe
        exact Nat.lt_trans (ih q.1 q.2 (by simpa using hq)) (by simp)

/-- After an opening `[`, find `](` with the lazy text group (backtracking
past a `]` whose url part does not close), returning text, url and the
remainder after the closing `)`. -/
def tryLink : List Char → Option (List Char × List Char × List Char)
  | [] => none
  | c :: rest =>
    if c = '\n' then none
    else if c = ']' ∧ rest.head? = some '(' then
      match linkScanUrl rest.tail with
      | some (u, rem) => some ([], u, rem)
      | none => (tryLink rest).map (fun p => (']' :: p.1, p.2.1, p.2.2))
    else (tryLink rest).map (fun p => (c :: p.1, p.2.1, p.2.2))

theorem tryLink_length :
    ∀ l t u rem, tryLink l = some (t, u, rem) → rem.length < l.length := by
  intro l
  induction l with
  | nil => intro t u rem h; simp [tryLink] at h
  | cons c rest ih =>
    intro t u rem h
    simp only [tryLink] at h
    split at h
    · exact absurd h (by simp)
    · split at h
      · cases hu : linkScanUrl rest.tail with
        | some p =>
          rw [hu] at h
          cases h
          have h1 := linkScanUrl_length rest.tail p.1 p.2 (by simpa using hu)
          have h2 : rest.tail.length ≤ rest.length := by
            cases rest <;> simp
          simp only [List.length_cons]
          omega
        | none =>
          rw [hu] at h
          rcases Option.map_eq_some'.mp h with ⟨q, hq, hqe⟩
          cases hqe
          exact Nat.lt_trans (ih q.1 q.2.1 q.2.2 (by simpa using hq)) (by simp)
      · rcases Option.map_eq_some'.mp h with ⟨q, hq, hqe⟩
        cases hqe
        exact Nat.lt_trans (ih q.1 q.2.1 q.2.2 (by simpa using hq)) (by simp)

/-- `re.sub` of the link pattern `\[(.*?)\]\((.*?)\)` with replacement
`<a href="\2">\1</a>`: scan left to right, replacing each non-overlapping
match and continuing after it. -/
def subLinks (l : List Char) : List Char :=
  match l with
  | [] => []
  | c :: rest =>
    if c = '[' then
      match h : tryLink rest with
      | some (t, u, rem) =>
        "<a href=\"".data ++ u ++ "\">".data ++ t ++ "</a>".data ++ subLinks rem
      | none => c :: subLinks rest
    else c :: subLinks rest
termination_by l.length
decreasing_by
  · have := tryLink_length rest t u rem h
    simp only [List.length_cons]
    omega
  · simp
  · simp

/-- The backtick character (code point 96). -/
def btick : Char := Char.ofNat 96

/-- The lazy DOTALL body of the code-block regex: the shortest run of
characters (newlines included) closed by a triple backtick. -/
def scanCode : List Char → Option (List Char × List Char)
  | [] => none
  | c :: rest =>
    if c = btick ∧ rest.head? = some btick ∧ rest.tail.head? = some btick then
      some ([], rest.tail.tail)
    else (scanCode rest).map (fun p => (c :: p.1, p.2))

theorem scanCode_length :
    ∀ l b rem, scanCode l = some (b, rem) → rem.length < l.length := by
  intro l
  induction l with
  | nil => intro b rem h; simp [scanCode] at h
  | cons c rest ih =>
    intro b rem h
    simp only [scanCode] at h
    split at h
    · cases h
      have h1 : rest.tail.tail.length ≤ rest.length := by
        cases rest with
        | nil => simp
        | cons x xs => cases xs <;> simp <;> omega
      simp only [List.length_cons]
      omega
    · rcases Option.map_eq_some'.mp h with ⟨q, hq, hqe⟩
      cases hqe
      exact Nat.lt_trans (ih q.1 q.2 (by simpa using hq)) (by simp)

/-- `re.sub` of the DOTALL pattern (triple backtick)`(.*?)`(triple backtick)
with replacement `<pre><code>\1</code></pre>`. -/
def subCode (l : List Char) : List Char :=
  match l with
  | [] => []
  | c :: rest =>
    if c = btick ∧ rest.head? = some btick ∧ rest.tail.head? = some btick then
      match h : scanCode rest.tail.tail with
      | some (body, rem) =>
        "<pre><code>".data ++ body ++ "</code></pre>".data ++ subCode rem
      | none => c :: subCode rest
    else c :: subCode rest
termination_by l.length
decreasing_by
  · have h1 := scanCode_length rest.tail.tail body rem h
    have h2 : rest.tail.tail.length ≤ rest.length := by
      cases rest with
      | nil => simp
      | cons x xs => cases xs <;> simp <;> omega
    simp only [List.length_cons]
    omega
  · simp
  · simp

/-- Text before the `{html}` slot of the wrapping f-string (lines 502-515),
with the doubled braces of the Python source rendered as single braces. -/
def htmlShellPre : String :=
  "\n        <!DOCTYPE html>\n        <html>\n        <head>\n            <title>TidyTuesday README</title>\n            <style>\n                body \x7b font-family: Arial, sans-serif; margin: 20px; line-height: 1.6; \x7d\n                h1, h2, h3 \x7b color: #333; \x7d\n                pre \x7b background-color: #f4f4f4; padding: 10px; border-radius: 5px; \x7d\n                a \x7b color: #0366d6; \x7d\n            </style>\n        </head>\n        <body>\n            "

/-- Text after the `{html}` slot of the wrapping f-string. -/
def htmlShellPost : String :=
  "\n        </body>\n        </html>\n        "

/-- `TidyTuesdayPy._markdown_to_html` (lines 474-520): heading substitutions,
then links, then code blocks, then newline-to-`<br>`, then the document
shell. -/
def markdown_to_html (md : String) : String :=
  let h1 := mdHeadings md
  let h2 := String.mk (subLinks h1.data)
  let h3 := String.mk (subCode h2.data)
  let h4 := replaceNl h3
  htmlShellPre ++ h4 ++ htmlShellPost

/-! ### `os.path.splitext` and the csv/tsv deserializer -/

/-- Index of the last `.` in a character list, if any. -/
def lastDotIdx : List Char → Option Nat
  | [] => none
  | c :: rest =>
    match lastDotIdx rest with
    | some i => some (i + 1)
    | none => if c = '.' then some 0 else none

/-- `os.path.splitext(name)[0]` for a plain file name: strip the final
extension unless every character before the last dot is itself a dot
(CPython treats leading dots as part of the root, so `".bashrc"` has no
extension). -/
def splitextStem (name : String) : String :=
  let cs := name.data
  match lastDotIdx cs with
  | none => name
  | some i => if (cs.take i).all (fun c => c = '.') then name else String.mk (cs.take i)

/-- One cell as pandas infers it on the inputs exercised here: an
integer-looking field becomes an integer, anything else stays a string. -/
def parseCell (s : String) : Cell :=
  match parseIntStr s with
  | some i => .int i
  | none => .str s

/-- Modelled from the spec: `pandas.read_csv` is an external library
collaborator; the spec fixes its contract to "comma/tab-delimited, first row
= header".  Rows whose field count differs from the header model the parse
errors pandas raises; `none` is a `ParseError`. -/
def csvParse (sep : Char) (bytes : String) : Option Table :=
  match (splitOnCh '\n' bytes).filter (fun l => l ≠ "") with
  | [] => none
  | header :: rest =>
    let cols := splitOnCh sep header
    let rows := rest.map (fun l => splitOnCh sep l)
    if rows.all (fun r => r.length = cols.length) then
      some ⟨cols, rows.map (fun r => r.map parseCell)⟩
    else none

/-! ## The operations of `TidyTuesdayPy` -/

/-- Lines 43-58: `rate_limit_check` returns the remaining budget reported by
the rate-limit endpoint, or `0` when that request failed. -/
def rate_limit_check (env : Env) : Int :=
  match env.rateLimit with
  | some n => n
  | none => 0

/-- Code-point lexicographic `≤` on character lists: how Python compares the
ISO date strings in `datasets.sort(key=lambda x: x["date"])`. -/
def listLe : List Char → List Char → Bool
  | [], _ => true
  | _ :: _, [] => false
  | a :: as, b :: bs =>
    if a.toNat < b.toNat then true
    else if b.toNat < a.toNat then false
    else listLe as bs

theorem listLe_total : ∀ a b, listLe a b = true ∨ listLe b a = true := by
  intro a
  induction a with
  | nil => intro b; left; rfl
  | cons x xs ih =>
    intro b
    cases b with
    | nil => right; rfl
    | cons y ys =>
      simp only [listLe]
      rcases Nat.lt_trichotomy x.toNat y.toNat with h | h | h
      · left; simp [h]
      · have h2 : ¬ x.toNat < y.toNat := by omega
        have h3 : ¬ y.toNat < x.toNat := by omega
        simpa [h2, h3] using ih ys
      · right; simp [h]

theorem listLe_trans :
    ∀ a b c, listLe a b = true → listLe b c = true → listLe a c = true := by
  intro a
  induction a with
  | nil => intro b c _ _; rfl
  | cons x xs ih =>
    intro b c hab hbc
    cases b with
    | nil => simp [listLe] at hab
    | cons y ys =>
      cases c with
      | nil => simp [listLe] at hbc
      | cons z zs =>
        simp only [listLe] at hab hbc ⊢
        rcases Nat.lt_trichotomy x.toNat y.toNat with h1 | h1 | h1
        · rcases Nat.lt_trichotomy y.toNat z.toNat with h2 | h2 | h2
          · simp [show x.toNat < z.toNat by omega]
          · simp [show x.toNat < z.toNat by omega]
          · exfalso
            simp [show ¬ y.toNat < z.toNat by omega, h2] at hbc
        · rcases Nat.lt_trichotomy y.toNat z.toNat with h2 | h2 | h2
          · simp [show x.toNat < z.toNat by omega]
          · have hab2 : listLe xs ys = true := by
              simpa [show ¬ x.toNat < y.toNat by omega,
                show ¬ y.toNat < x.toNat by omega] using hab
            have hbc2 : listLe ys zs = true := by
              simpa [show ¬ y.toNat < z.toNat by omega,
                show ¬ z.toNat < y.toNat by omega] using hbc
            simpa [show ¬ x.toNat < z.toNat by omega,
              show ¬ z.toNat < x.toNat by omega] using ih ys zs hab2 hbc2
          · exfalso
            simp [show ¬ y.toNat < z.toNat by omega, h2] at hbc
        · exfalso
          simp [show ¬ x.toNat < y.toNat by omega, h1] at hab

/-- The comparison used to sort a year's datasets (`key=lambda x: x["date"]`,
lexicographic on the ISO date strings). -/
def summaryLe (a b : Summary) : Prop := listLe a.date.data b.date.data = true

instance : DecidableRel summaryLe := fun a b =>
  inferInstanceAs (Decidable (_ = true))

/-- Lines 130-195: `tt_datasets`.  Refuse below the rate threshold, fetch the
year's directory listing, keep directories whose name is a `YYYY-MM-DD`
pattern, derive each title from the folder's README (fetch failure or a
missing heading degrade to `"Unknown"`), and sort ascending by date.
Failures return `[]` (the code prints the error and returns an empty list).
`summaryOf` is one iteration of its folder loop (lines 158-180): the date
pattern filter and the title extraction with the `"Unknown"` fallback. -/
def summaryOf (env : Env) (year : String) (f : GhItem) : Option Summary :=
  if isDatePattern f.name then
    some ⟨f.name,
      (match env.rawReadme year f.name with
       | some content => extractTitle content
       | none => "Unknown"),
      year ++ "/" ++ f.name⟩
  else none

/-- The loop and sort of `tt_datasets` over a listing response. -/
def datasetsOf (env : Env) (year : String) (items : List GhItem) : List Summary :=
  List.insertionSort summaryLe
    ((items.filter (fun it => it.type = "dir")).filterMap (summaryOf env year))

def tt_datasets (env : Env) (year : String) : List Summary :=
  if rate_limit_check env < 5 then []
  else
    match env.listYear year with
    | none => []
    | some items => datasetsOf env year items

/-- Lines 213-231 of `tt_load_gh`: resolve the `(date_or_year, week)`
arguments to the `(year, date)` pair naming the dataset folder.  Week mode
consults the year's sorted catalog: an empty catalog is the printed
"No datasets found" failure, a week outside `[1, length]` the printed
"out of range" failure; otherwise the 1-based entry's date.  Date mode
passes the string through, with `year` its first four characters. -/
def resolveDate (env : Env) (date_or_year : String) (week : Option Int) :
    Except TTErr (String × String) :=
  match week with
  | some w =>
    let ds := tt_datasets env date_or_year
    if ds.isEmpty then .error .notFound
    else if h : w < 1 ∨ w > (ds.length : Int) then .error .outOfRange
    else .ok (date_or_year, (ds.get ⟨(w - 1).toNat, by omega⟩).date)
  | none => .ok (takeStr 4 date_or_year, date_or_year)

/-- Lines 197-270: `tt_load_gh`.  Rate check, resolve the folder, list its
contents (non-200 is the printed fetch failure returning `{}`), split
entries into data files (type `"file"`, name not starting with `"readme"`
case-insensitively) and fetch the README (failure tolerated as `""`).
`Except.error` models the printed-message-plus-empty-`{}` exits. -/
def tt_load_gh (env : Env) (date_or_year : String) (week : Option Int) :
    Except TTErr Metadata :=
  if rate_limit_check env < 5 then .error .rateLimited
  else
    match resolveDate env date_or_year week with
    | .error e => .error e
    | .ok (year, date) =>
      match env.listFolder year date with
      | none => .error .fetchError
      | some items =>
        let files := (items.filter (fun it =>
            it.type = "file" && !(startsWithStr "readme" (lowerStr it.name)))).map
          (fun it => FileRef.mk it.name it.download_url it.path)
        let readme_content := (env.rawReadme year date).getD ""
        .ok ⟨date, year, files, readme_content, markdown_to_html readme_content⟩

/-- The dictionary literal returned by `tt_load_gh` (lines 260-266), key
order preserved. -/
def dictOfMeta (m : Metadata) : TTData :=
  [("date", .str m.date), ("year", .str m.year), ("files", .files m.files),
   ("readme_content", .str m.readme_content), ("readme_html", .str m.readme_html)]

/-- Lines 317-329 / 390-402 (the identical extension dispatch of
`tt_download_file` and `tt_download`): strictly by case-insensitive suffix of
the file name; unknown extensions are the printed "Unsupported file format"
failure and a parser failure the caught exception. -/
def readFileByExt (env : Env) (fileName : String) (bytes : String) :
    Except TTErr Table :=
  let lower := lowerStr fileName
  if endsWithStr ".csv" lower then
    match csvParse ',' bytes with
    | some t => .ok t
    | none => .error .parseError
  else if endsWithStr ".tsv" lower then
    match csvParse '\t' bytes with
    | some t => .ok t
    | none => .error .parseError
  else if endsWithStr ".xls" lower || endsWithStr ".xlsx" lower then
    match env.xlsParse bytes with
    | some t => .ok t
    | none => .error .parseError
  else if endsWithStr ".json" lower then
    match env.jsonParse bytes with
    | some t => .ok t
    | none => .error .parseError
  else .error .unsupportedFormat

/-- Lines 365-371: resolve an explicit name list against the available files,
in the order given, printing a warning per unmatched name. -/
def selectFiles (available : List FileRef) : List String → List FileRef × List Diag
  | [] => ([], [])
  | n :: rest =>
    match available.find? (fun f => f.name = n) with
    | some fi =>
      let (fs, ds) := selectFiles available rest
      (fi :: fs, ds)
    | none =>
      let (fs, ds) := selectFiles available rest
      (fs, .fileNotFound n :: ds)

/-- One iteration of the download loop (lines 374-414): fetch the bytes (a
non-200 response is reported and skipped), dispatch on the extension
(unsupported or failing parses are reported and skipped), and on success
store the table under the extension-stripped name, overwriting any earlier
entry with the same key. -/
def processFile (env : Env) (st : List (String × Table) × List Diag)
    (f : FileRef) : List (String × Table) × List Diag :=
  match env.fileBytes f.download_url with
  | none => (st.1, st.2 ++ [.downloadError f.name])
  | some bs =>
    match readFileByExt env f.name bs with
    | .ok t => (dictInsert st.1 (splitextStem f.name) t, st.2)
    | .error .unsupportedFormat => (st.1, st.2 ++ [.unsupportedFormat f.name])
    | .error _ => (st.1, st.2 ++ [.processError f.name])

/-- The download loop over the resolved file list, in order. -/
def downloadLoop (env : Env) (fs : List FileRef) :
    List (String × Table) × List Diag :=
  fs.foldl (processFile env) ([], [])

/-- Lines 341-420: `tt_download`.  A missing `"files"` key (in particular the
empty `{}` of a failed `tt_load_gh`) is the printed "Invalid TidyTuesday
data" exit with an empty result; a non-list `"files"` value makes the loop
raise a `TypeError` that the enclosing `try` turns into an empty result.
Otherwise resolve the selector (the exact string `"All"` means every file, any
other string a one-element name list) and run the download loop. -/
def tt_download (env : Env) (td : TTData) (files : PySel) :
    List (String × Table) × List Diag :=
  match lookupDict "files" td with
  | none => ([], [.invalidData])
  | some (.str _) => ([], [.processError "files"])
  | some (.files available) =>
    let sel :=
      match files with
      | .str s => if s = "All" then (available, []) else selectFiles available [s]
      | .names l => selectFiles available l
    let dl := downloadLoop env sel.1
    (dl.1, sel.2 ++ dl.2)

/-- The single-file tail of `tt_download_file` (lines 302-335): fetch and
dispatch one resolved file, returning the empty DataFrame on any reported
failure. -/
def doDownload (env : Env) (fi : FileRef) : Table × List Diag :=
  match env.fileBytes fi.download_url with
  | none => (emptyTable, [.downloadError fi.name])
  | some bs =>
    match readFileByExt env fi.name bs with
    | .ok t => (t, [])
    | .error .unsupportedFormat => (emptyTable, [.unsupportedFormat fi.name])
    | .error _ => (emptyTable, [.processError fi.name])

/-- Lines 272-339: `tt_download_file`.  Same `"files"` guard as
`tt_download`; an integer identifier is a 0-based index (out of range is the
printed failure with an empty DataFrame), a string identifier an exact name
match (no match is the printed "not found" failure). -/
def tt_download_file (env : Env) (td : TTData) (ident : FileIdent) :
    Table × List Diag :=
  match lookupDict "files" td with
  | none => (emptyTable, [.invalidData])
  | some (.str _) => (emptyTable, [.processError "files"])
  | some (.files files) =>
    match ident with
    | .idx i =>
      if h : i < 0 ∨ i ≥ (files.length : Int) then
        (emptyTable, [.indexOutOfRange i])
      else doDownload env (files.get ⟨i.toNat, by omega⟩)
    | .name s =>
      match files.find? (fun f => f.name = s) with
      | none => (emptyTable, [.fileNotFound s])
      | some fi => doDownload env fi

/-- Lines 89-128: `tt_available`.  Rate check, list the catalog root, and
build the year-to-datasets dictionary via `tt_datasets` per year
(which re-checks the rate limit itself). -/
def tt_available (env : Env) : List (String × List Summary) :=
  if rate_limit_check env < 5 then []
  else
    match env.listRoot with
    | none => []
    | some items =>
      let years := (items.filter (fun it => it.type = "dir")).map (fun it => it.name)
      years.foldl (fun acc y => dictInsert acc y (tt_datasets env y)) []

/-- The four leading fields of the `tt_load` result dictionary
(lines 445-449). -/
def metaBaseDict (m : Metadata) : List (String × LoadVal) :=
  [("date", .str m.date), ("year", .str m.year),
   ("readme_content", .str m.readme_content), ("readme_html", .str m.readme_html)]

/-- Lines 422-453: `tt_load`.  Fetch the metadata (an empty `{}` is returned
unchanged), download the selected files, and build the result dictionary:
the four metadata fields followed by `**data`, i.e. every downloaded table
spliced into the same flat dictionary keyed by file stem, overwriting on key
collision. -/
def tt_load (env : Env) (date_or_year : String) (week : Option Int)
    (files : PySel) : List (String × LoadVal) :=
  match tt_load_gh env date_or_year week with
  | .error _ => []
  | .ok m =>
    let data := (tt_download env (dictOfMeta m) files).1
    data.foldl (fun d p => dictInsert d p.1 (LoadVal.table p.2)) (metaBaseDict m)

/-! ## Helper lemmas -/

instance : IsTotal Summary summaryLe :=
  ⟨fun a b => listLe_total a.date.data b.date.data⟩

instance : IsTrans Summary summaryLe :=
  ⟨fun _ _ _ h1 h2 => listLe_trans _ _ _ h1 h2⟩

theorem tt_datasets_rate {env : Env} {y : String}
    (h : tt_datasets env y ≠ []) : ¬ rate_limit_check env < 5 := by
  intro hr
  exact h (by simp [tt_datasets, hr])

theorem selectFiles_fst_skip (avail : List FileRef) (m : String)
    (hm : avail.find? (fun f => f.name = m) = none) :
    ∀ xs ys, (selectFiles avail (xs ++ m :: ys)).1 = (selectFiles avail (xs ++ ys)).1 := by
  intro xs ys
  induction xs with
  | nil => simp [selectFiles, hm]
  | cons x rest ih =>
    simp only [List.cons_append, selectFiles]
    cases avail.find? (fun f => f.name = x) <;> simp [ih]

theorem lookup_dictInsert {α : Type} (d : List (String × α)) (kk k : String) (v : α) :
    lookupDict k (dictInsert d kk v) = if kk = k then some v else lookupDict k d := by
  induction d with
  | nil => simp [dictInsert, lookupDict]
  | cons p rest ih =>
    obtain ⟨k1, v1⟩ := p
    simp only [dictInsert]
    by_cases h : k1 = kk
    · subst h
      by_cases h2 : k1 = k <;> simp [lookupDict, h2]
    · rw [if_neg h]
      by_cases h2 : k1 = k
      · subst h2
        have hne : ¬ kk = k1 := fun hc => h hc.symm
        simp [lookupDict, hne]
      · simp [lookupDict, h2, ih]

theorem lookup_append {α : Type} (l1 l2 : List (String × α)) (k : String) :
    lookupDict k (l1 ++ l2) =
      match lookupDict k l1 with
      | some v => some v
      | none => lookupDict k l2 := by
  induction l1 with
  | nil => simp [lookupDict]
  | cons p rest ih =>
    obtain ⟨k1, v1⟩ := p
    simp only [List.cons_append, lookupDict]
    by_cases h : k1 = k <;> simp [h, ih]

theorem lookup_foldl_ins (data : List (String × Table))
    (base : List (String × LoadVal)) (k : String) :
    lookupDict k (data.foldl (fun d p => dictInsert d p.1 (LoadVal.table p.2)) base) =
      match lookupDict k data.reverse with
      | some t => some (.table t)
      | none => lookupDict k base := by
  induction data generalizing base with
  | nil => simp [lookupDict]
  | cons p rest ih =>
    obtain ⟨k0, t0⟩ := p
    simp only [List.foldl_cons, List.reverse_cons]
    rw [ih, lookup_append]
    cases hr : lookupDict k rest.reverse with
    | some t => rfl
    | none =>
      simp only [lookupDict, lookup_dictInsert]
      by_cases h : k0 = k <;> simp [h]

/-! ## Concrete environments used by the witnesses and counterexamples -/

/-- A baseline environment: healthy rate budget, every remote request fails. -/
def env0 : Env where
  rateLimit := some 100
  listRoot := none
  listYear := fun _ => none
  listFolder := fun _ _ => none
  rawReadme := fun _ _ => none
  fileBytes := fun _ => none
  xlsParse := fun _ => none
  jsonParse := fun _ => none
  todayOrd := 1

/-- A catalog with two (unsorted) dataset folders under 2020 and an empty
listing under 2021. -/
def envA : Env :=
  { env0 with
    listYear := fun y =>
      if y = "2020" then
        some [⟨"2020-01-14", "dir", "", ""⟩, ⟨"2020-01-07", "dir", "", ""⟩]
      else if y = "2021" then some []
      else none }

/-- A year listing whose single directory is dated in a different year. -/
def env4 : Env :=
  { env0 with
    listYear := fun y =>
      if y = "2020" then some [⟨"2019-01-01", "dir", "", ""⟩] else none }

/-- One dataset folder holding a single csv file. -/
def env6 : Env :=
  { env0 with
    listFolder := fun y d =>
      if y = "2021" && d = "2021-01-05" then
        some [⟨"x.csv", "file", "u1", "p1"⟩]
      else none
    fileBytes := fun u => if u = "u1" then some "a,b\n1,2" else none }

/-- Byte store holding a csv and a tsv that share the stem `x`. -/
def env7 : Env :=
  { env0 with
    fileBytes := fun u =>
      if u = "u1" then some "a,b\n1,2"
      else if u = "u2" then some "c\n7"
      else none }

/-- The same byte store with the rate budget exhausted. -/
def envR0 : Env := { env7 with rateLimit := some 0 }

/-- Metadata dictionary with one available csv file. -/
def td5 : TTData := [("files", .files [⟨"a.csv", "u1", "p1"⟩])]

/-- Metadata dictionary with a csv and a tsv sharing the stem `x`. -/
def td7 : TTData :=
  [("files", .files [⟨"x.csv", "u1", "p1"⟩, ⟨"x.tsv", "u2", "p2"⟩])]

/-- Metadata dictionary with one csv file, used against the exhausted-budget
environment. -/
def tdR : TTData := [("files", .files [⟨"x.csv", "u1", "p1"⟩])]

/-- Metadata dictionary offering a csv and an unsupported `.xyz` file. -/
def td3 : TTData :=
  [("files", .files [⟨"data.csv", "u1", "p1"⟩, ⟨"data.xyz", "u1", "p1"⟩])]

/-! ## Claims -/

/-- Claim C1: for every valid calendar date `d` (embedded as its ordinal),
`last_tuesday` returns a date whose weekday is Tuesday (1 with Monday = 0),
lying at most 6 days before `d`, computed as `d` minus
`(weekday(d) - 1) mod 7` days. -/
theorem claim_C1 (d : Int) :
    pyWeekday (last_tuesday_ord d) = 1 ∧
    0 ≤ d - last_tuesday_ord d ∧ d - last_tuesday_ord d ≤ 6 ∧
    last_tuesday_ord d = d - (pyWeekday d - 1) % 7 := by
  unfold last_tuesday_ord pyWeekday
  omega

/-- Claim C3: the extension dispatch is strictly by case-insensitive file
extension.  The bytes `"a,b\n1,2"` under a `.csv` name (in either case)
yield the table with columns `a`, `b` and the single row `1`, `2`; the same
bytes under a `.xyz` name yield `UnsupportedFormat`, and `tt_download_file`
then produces the empty DataFrame rather than a table. -/
theorem claim_C3 :
    readFileByExt env0 "data.csv" "a,b\n1,2" =
      .ok ⟨["a", "b"], [[.int 1, .int 2]]⟩ ∧
    readFileByExt env0 "DATA.CSV" "a,b\n1,2" =
      .ok ⟨["a", "b"], [[.int 1, .int 2]]⟩ ∧
    readFileByExt env0 "data.xyz" "a,b\n1,2" = .error .unsupportedFormat ∧
    tt_download_file env7 td3 (.name "data.csv") =
      (⟨["a", "b"], [[.int 1, .int 2]]⟩, []) ∧
    tt_download_file env7 td3 (.name "data.xyz") =
      (emptyTable, [.unsupportedFormat "data.xyz"]) := by
  refine ⟨?_, ?_, ?_, ?_, ?_⟩ <;> rfl

/-- Claim C10: a `tt_data` value lacking the `"files"` key (in particular the
empty `{}` returned by a failed resolution) makes `tt_download` return an
empty mapping and `tt_download_file` an empty DataFrame, each with one
reported diagnostic, instead of raising. -/
theorem claim_C10 (env : Env) (td : TTData) (sel : PySel) (ident : FileIdent)
    (h : lookupDict "files" td = none) :
    tt_download env td sel = ([], [.invalidData]) ∧
    tt_download_file env td ident = (emptyTable, [.invalidData]) := by
  constructor
  · simp [tt_download, h]
  · simp [tt_download_file, h]

/-- Witness for C10 at the empty dictionary. -/
theorem claim_C10_witness :
    tt_download env0 [] (.str "All") = ([], [.invalidData]) ∧
    tt_download_file env0 [] (.idx 0) = (emptyTable, [.invalidData]) :=
  claim_C10 env0 [] (.str "All") (.idx 0) rfl

/-- Claim C5: a selector naming only a file absent from `metadata.files`
yields an empty result mapping plus exactly one reported not-found
diagnostic, and an unmatched name anywhere in a selector list does not
affect the result produced for the remaining names (they are still resolved
and downloaded in selector order). -/
theorem claim_C5 (env : Env) (td : TTData) (avail : List FileRef)
    (hf : lookupDict "files" td = some (.files avail))
    (hm : ∀ f ∈ avail, f.name ≠ "missing.csv") :
    tt_download env td (.names ["missing.csv"]) =
      ([], [.fileNotFound "missing.csv"]) ∧
    ∀ m xs ys, (∀ f ∈ avail, f.name ≠ m) →
      (tt_download env td (.names (xs ++ m :: ys))).1 =
          (tt_download env td (.names (xs ++ ys))).1 ∧
        (selectFiles avail (xs ++ m :: ys)).1 = (selectFiles avail (xs ++ ys)).1 := by
  constructor
  · have hnone : avail.find? (fun f => f.name = "missing.csv") = none :=
      List.find?_eq_none.mpr (fun f hmem => by simpa using hm f hmem)
    simp [tt_download, hf, selectFiles, hnone, downloadLoop]
  · intro m xs ys hmm
    have hnone : avail.find? (fun f => f.name = m) = none :=
      List.find?_eq_none.mpr (fun f hmem => by simpa using hmm f hmem)
    have hsel := selectFiles_fst_skip avail m hnone xs ys
    refine ⟨?_, hsel⟩
    simp [tt_download, hf, hsel]

/-- Witness for C5: one available file `a.csv`; the missing name alone gives
the empty mapping and one diagnostic, and inserting an unmatched name into a
selector leaves the produced mapping unchanged. -/
theorem claim_C5_witness :
    tt_download env7 td5 (.names ["missing.csv"]) =
      ([], [.fileNotFound "missing.csv"]) ∧
    (tt_download env7 td5 (.names ["a.csv", "zzz.csv"])).1 =
      (tt_download env7 td5 (.names ["a.csv"])).1 := by
  have h := claim_C5 env7 td5 [⟨"a.csv", "u1", "p1"⟩] rfl (by decide)
  exact ⟨h.1, ((h.2 "zzz.csv" ["a.csv"] []) (by decide)).1⟩

/-- Claim C7: when two successfully parsed files share a stem after
extension stripping, the later-processed file's table silently overwrites
the earlier one in the `tt_download` result — last one processed wins, and
no diagnostic is reported. -/
theorem claim_C7 (env : Env) (td : TTData) (f1 f2 : FileRef) (b1 b2 : String)
    (t1 t2 : Table)
    (hf : lookupDict "files" td = some (.files [f1, f2]))
    (h1 : env.fileBytes f1.download_url = some b1)
    (h2 : env.fileBytes f2.download_url = some b2)
    (p1 : readFileByExt env f1.name b1 = .ok t1)
    (p2 : readFileByExt env f2.name b2 = .ok t2)
    (hstem : splitextStem f1.name = splitextStem f2.name) :
    tt_download env td (.str "All") = ([(splitextStem f2.name, t2)], []) := by
  simp [tt_download, hf, downloadLoop, processFile, h1, h2, p1, p2,
    dictInsert, hstem]

/-- Witness for C7: `x.csv` then `x.tsv`, both parsing, collapse to the
single key `x` bound to the tsv's table. -/
theorem claim_C7_witness :
    tt_download env7 td7 (.str "All") =
      ([("x", ⟨["c"], [[.int 7]]⟩)], []) := by
  have h := claim_C7 env7 td7 ⟨"x.csv", "u1", "p1"⟩ ⟨"x.tsv", "u2", "p2"⟩
    "a,b\n1,2" "c\n7" ⟨["a", "b"], [[.int 1, .int 2]]⟩ ⟨["c"], [[.int 7]]⟩
    (by rfl) (by rfl) (by rfl) (by rfl) (by rfl) (by rfl)
  simpa using h

/-- Counterexample to claim C8: `last_tuesday` does not guard its
`strptime` call, so an unparseable date string terminates the operation
with an uncaught `ValueError` instead of reporting a parse error and
returning a result. -/
theorem claim_C8_counterexample :
    last_tuesday env0 (some "not-a-date") = .raised "ValueError" := by rfl

/-- Claim C8 as amended: every top-level operation except `last_tuesday`
returns a (possibly empty) result rather than raising; `last_tuesday`
returns the formatted preceding Tuesday on every parseable `YYYY-MM-DD`
string and propagates an uncaught `ValueError` on every unparseable one. -/
theorem claim_C8_amended (env : Env) (s : String) :
    (∀ n, parseDateIso s = some n →
      last_tuesday env (some s) = .ok (fmtDate (last_tuesday_ord n)) ∧
        pyWeekday (last_tuesday_ord n) = 1) ∧
    (parseDateIso s = none → last_tuesday env (some s) = .raised "ValueError") := by
  constructor
  · intro n hn
    refine ⟨by simp [last_tuesday, hn], ?_⟩
    unfold last_tuesday_ord pyWeekday
    omega
  · intro hn
    simp [last_tuesday, hn]

/-- Witness for C8: a parseable date resolves to its Tuesday, an invalid
calendar date (Feb 29 of a non-leap year) raises. -/
theorem claim_C8_witness :
    last_tuesday env0 (some "2024-03-15") = .ok "2024-03-12" ∧
    last_tuesday env0 (some "2023-02-29") = .raised "ValueError" := by
  have h1 := ((claim_C8_amended env0 "2024-03-15").1 (dateToOrd 2024 3 15) (by rfl)).1
  have h2 := (claim_C8_amended env0 "2023-02-29").2 (by rfl)
  exact ⟨h1.trans (by rfl), h2⟩

/-- Counterexample to claim C6: on a successful load, `tt_load` returns no
`tables` mapping at all — the parsed table appears directly at top level
under its file stem, interleaved with the metadata fields. -/
theorem claim_C6_counterexample :
    lookupDict "tables" (tt_load env6 "2021-01-05" none (.str "All")) = none ∧
    lookupDict "x" (tt_load env6 "2021-01-05" none (.str "All")) =
      some (.table ⟨["a", "b"], [[.int 1, .int 2]]⟩) := by
  exact ⟨by rfl, by rfl⟩

/-- Claim C6 as amended: for every identifier resolving to a dataset,
`tt_load` returns a single flat mapping — the four metadata fields `date`,
`year`, `readme_content`, `readme_html` followed by one entry per loaded
table keyed by file stem, spliced into the same dictionary (a stem equal to
a metadata key overwrites that field); there is no nested `tables`
mapping.  Lookup in the result finds the most recently inserted table for a
key, falling back to the metadata fields. -/
theorem claim_C6_amended (env : Env) (date_or_year : String) (week : Option Int)
    (sel : PySel) (m : Metadata)
    (h : tt_load_gh env date_or_year week = .ok m) (k : String) :
    lookupDict k (tt_load env date_or_year week sel) =
      match lookupDict k ((tt_download env (dictOfMeta m) sel).1.reverse) with
      | some t => some (.table t)
      | none => lookupDict k (metaBaseDict m) := by
  simp only [tt_load, h]
  exact lookup_foldl_ins _ _ k

/-- Witness for C6: the loaded csv is found at its stem in the flat result. -/
theorem claim_C6_witness :
    lookupDict "x" (tt_load env6 "2021-01-05" none (.str "All")) =
      some (.table ⟨["a", "b"], [[.int 1, .int 2]]⟩) := by
  have h := claim_C6_amended env6 "2021-01-05" none (.str "All")
    ⟨"2021-01-05", "2021", [⟨"x.csv", "u1", "p1"⟩], "", markdown_to_html ""⟩
    (by rfl) "x"
  exact h.trans (by rfl)

/-- `self` with the rate-limit probe replaced: used to state that an
operation never consults the budget. -/
def Env.withRate (env : Env) (r : Option Int) : Env := { env with rateLimit := r }

/-- Counterexample to claim C9: `tt_download` performs no rate-budget check
at all — with 0 remaining calls (below the threshold 5) it still proceeds
and downloads successfully, reporting no capacity error. -/
theorem claim_C9_counterexample :
    rate_limit_check envR0 = 0 ∧
    tt_download envR0 tdR (.str "All") =
      ([("x", ⟨["a", "b"], [[.int 1, .int 2]]⟩)], []) := by
  exact ⟨by rfl, by rfl⟩

/-- Claim C9 as amended: `tt_datasets`, `tt_load_gh` and `tt_available`
refuse to proceed (empty result / reported capacity failure) when the
remaining budget is below 5 — though `tt_available` and week-mode
`tt_load_gh` re-check through their nested `tt_datasets` calls rather than
exactly once — while `tt_download` and `tt_download_file` never consult the
budget: their results are invariant under any change to it. -/
theorem claim_C9_amended (env : Env) (year date_or_year : String)
    (week : Option Int) (td : TTData) (sel : PySel) (ident : FileIdent)
    (r : Option Int) :
    (rate_limit_check env < 5 →
      tt_datasets env year = [] ∧
        tt_load_gh env date_or_year week = .error .rateLimited ∧
        tt_available env = []) ∧
    tt_download (env.withRate r) td sel = tt_download env td sel ∧
    tt_download_file (env.withRate r) td ident = tt_download_file env td ident := by
  refine ⟨fun h => ⟨?_, ?_, ?_⟩, rfl, rfl⟩
  · simp [tt_datasets, h]
  · simp [tt_load_gh, h]
  · simp [tt_available, h]

/-- Witness for C9: with the budget at 0 every checking operation refuses,
and the download operations ignore a budget change. -/
theorem claim_C9_witness :
    (tt_datasets envR0 "2020" = [] ∧
      tt_load_gh envR0 "2021-01-05" none = .error .rateLimited ∧
      tt_available envR0 = []) ∧
    tt_download (envR0.withRate (some 5000)) tdR (.str "All") =
        tt_download envR0 tdR (.str "All") ∧
      tt_download_file (envR0.withRate (some 5000)) tdR (.idx 0) =
        tt_download_file envR0 tdR (.idx 0) := by
  have h := claim_C9_amended envR0 "2020" "2021-01-05" none tdR (.str "All")
    (.idx 0) (some 5000)
  exact ⟨h.1 (by decide), h.2⟩

/-- Claim C2: with a week argument, `tt_load_gh` resolves week `k` of a year
with a non-empty dataset list of length `N` to the date of the `k`-th entry
of the chronologically sorted list (1-based) for `k` in `[1, N]`; any `k`
outside `[1, N]` (in particular `0` and `N + 1`) fails with the out-of-range
error producing no dataset reference, and an empty dataset list fails with
the not-found error. -/
theorem claim_C2 (env : Env) (year : String) (k : Int) :
    (tt_datasets env year ≠ [] →
      (∀ hb : (k - 1).toNat < (tt_datasets env year).length,
        1 ≤ k → k ≤ ((tt_datasets env year).length : Int) →
        resolveDate env year (some k) =
          .ok (year, ((tt_datasets env year).get ⟨(k - 1).toNat, hb⟩).date) ∧
        ∀ m, tt_load_gh env year (some k) = .ok m →
          m.date = ((tt_datasets env year).get ⟨(k - 1).toNat, hb⟩).date) ∧
      ((k < 1 ∨ k > ((tt_datasets env year).length : Int)) →
        tt_load_gh env year (some k) = .error .outOfRange)) ∧
    (¬ rate_limit_check env < 5 → tt_datasets env year = [] →
      tt_load_gh env year (some k) = .error .notFound) := by
  refine ⟨fun hne => ⟨fun hb h1 h2 => ?_, fun hout => ?_⟩, fun hr hds => ?_⟩
  · have hemp : (tt_datasets env year).isEmpty = false := by
      cases h : tt_datasets env year with
      | nil => exact absurd h hne
      | cons a l => rfl
    have hno : ¬ (k < 1 ∨ k > ((tt_datasets env year).length : Int)) := by omega
    have hres : resolveDate env year (some k) =
        .ok (year, ((tt_datasets env year).get ⟨(k - 1).toNat, hb⟩).date) := by
      simp only [resolveDate, hemp, Bool.false_eq_true, if_false, dif_neg hno]
    refine ⟨hres, fun m hm => ?_⟩
    rw [tt_load_gh, if_neg (tt_datasets_rate hne), hres] at hm
    dsimp only at hm
    cases hf : env.listFolder year
        ((tt_datasets env year).get ⟨(k - 1).toNat, hb⟩).date with
    | none => rw [hf] at hm; exact absurd hm (by simp)
    | some items =>
      rw [hf] at hm
      simp only [Except.ok.injEq] at hm
      rw [← hm]
  · have hemp : (tt_datasets env year).isEmpty = false := by
      cases h : tt_datasets env year with
      | nil => exact absurd h hne
      | cons a l => rfl
    have hres : resolveDate env year (some k) = .error .outOfRange := by
      simp only [resolveDate, hemp, Bool.false_eq_true, if_false, dif_pos hout]
    rw [tt_load_gh, if_neg (tt_datasets_rate hne), hres]
  · have hres : resolveDate env year (some k) = .error .notFound := by
      simp only [resolveDate, hds, List.isEmpty_nil, if_true]
    rw [tt_load_gh, if_neg hr, hres]

/-- Witness for C2 over a two-dataset year: week 1 resolves to the earlier
date, weeks 0 and 3 are out of range, an empty year is not found. -/
theorem claim_C2_witness :
    resolveDate envA "2020" (some 1) = .ok ("2020", "2020-01-07") ∧
    tt_load_gh envA "2020" (some 0) = .error .outOfRange ∧
    tt_load_gh envA "2020" (some 3) = .error .outOfRange ∧
    tt_load_gh envA "2021" (some 1) = .error .notFound := by
  refine ⟨?_, ?_, ?_, ?_⟩
  · have h := (((claim_C2 envA "2020" 1).1 (by decide)).1
      (by decide) (by decide) (by decide)).1
    exact h.trans (by rfl)
  · exact ((claim_C2 envA "2020" 0).1 (by decide)).2 (by decide)
  · exact ((claim_C2 envA "2020" 3).1 (by decide)).2 (by decide)
  · exact (claim_C2 envA "2021" 1).2 (by decide) (by rfl)

/-- Counterexample to claim C4: `tt_datasets` never checks a folder's name
against the queried year, only against the `YYYY-MM-DD` pattern, so a
listing response containing a directory dated in another year produces an
entry whose date does not start with the queried year. -/
theorem claim_C4_counterexample :
    tt_datasets env4 "2020" = [⟨"2019-01-01", "Unknown", "2020/2019-01-01"⟩] ∧
    startsWithStr "2020" "2019-01-01" = false := by
  exact ⟨by rfl, by rfl⟩

/-- Claim C4 as amended: for every year and remote listing response the
`tt_datasets` output is sorted non-decreasing by its date field, and every
entry's date matches the `YYYY-MM-DD` pattern; every entry's date starts
with the queried year provided every directory name in the listing response
does (which the real endpoint guarantees but the code does not check). -/
theorem claim_C4_amended (env : Env) (year : String) :
    List.Sorted summaryLe (tt_datasets env year) ∧
    (∀ s ∈ tt_datasets env year, isDatePattern s.date = true) ∧
    (∀ items, env.listYear year = some items →
      (∀ it ∈ items, startsWithStr year it.name = true) →
      ∀ s ∈ tt_datasets env year, startsWithStr year s.date = true) := by
  by_cases hr : rate_limit_check env < 5
  · simp [tt_datasets, hr]
  · cases hl : env.listYear year with
    | none => simp [tt_datasets, hr, hl]
    | some items =>
      have hds : tt_datasets env year = datasetsOf env year items := by
        simp [tt_datasets, hr, hl]
      have hmem : ∀ s ∈ tt_datasets env year,
          ∃ f ∈ items, summaryOf env year f = some s := by
        intro s hs
        rw [hds] at hs
        have hs2 : s ∈ (items.filter
            (fun it => it.type = "dir")).filterMap (summaryOf env year) :=
          (List.perm_insertionSort summaryLe _).mem_iff.mp hs
        rcases List.mem_filterMap.mp hs2 with ⟨f, hf, hsf⟩
        exact ⟨f, (List.mem_filter.mp hf).1, hsf⟩
      have hdate : ∀ f s, summaryOf env year f = some s →
          s.date = f.name ∧ isDatePattern f.name = true := by
        intro f s hsf
        unfold summaryOf at hsf
        split at hsf
        · cases hsf
          exact ⟨rfl, by assumption⟩
        · exact absurd hsf (by simp)
      refine ⟨?_, ?_, ?_⟩
      · rw [hds]
        exact List.sorted_insertionSort summaryLe _
      · intro s hs
        rcases hmem s hs with ⟨f, _, hsf⟩
        rcases hdate f s hsf with ⟨he, hp⟩
        rw [he]
        exact hp
      · intro items2 hl2 hpre s hs
        cases hl2
        rcases hmem s hs with ⟨f, hfm, hsf⟩
        rcases hdate f s hsf with ⟨he, _⟩
        rw [he]
        exact hpre f hfm

/-- Witness for C4 at a two-folder listing whose names carry the queried
year: sortedness plus the pattern and prefix facts for the first entry. -/
theorem claim_C4_witness :
    List.Sorted summaryLe (tt_datasets envA "2020") ∧
    isDatePattern (⟨"2020-01-07", "Unknown", "2020/2020-01-07"⟩ : Summary).date = true ∧
    startsWithStr "2020"
      (⟨"2020-01-07", "Unknown", "2020/2020-01-07"⟩ : Summary).date = true := by
  have h := claim_C4_amended envA "2020"
  refine ⟨h.1, ?_, ?_⟩
  · exact h.2.1 ⟨"2020-01-07", "Unknown", "2020/2020-01-07"⟩ (by decide)
  · exact h.2.2 [⟨"2020-01-14", "dir", "", ""⟩, ⟨"2020-01-07", "dir", "", ""⟩]
      (by rfl) (by decide) ⟨"2020-01-07", "Unknown", "2020/2020-01-07"⟩ (by decide)
